import Mathlib

/-!
Verification of the document-management core of the Document Assistant
server (`Solutions/lab4_document_assistant_complete.py`).

The Python program keeps five pieces of state:
* the documents directory, one file `<id>.md` per document;
* the `.versions` directory, one file `<id>_<timestamp>.md` per snapshot;
* the in-memory `document_cache` (rebuilt from disk by `load_documents`);
* the in-memory `tags_cache`;
* the persisted `.tags.json` file.

Directories and Python dicts are both modelled as association lists from
`String` keys, preserving insertion order (Python dicts preserve insertion
order; an update in place keeps the key's position, exactly as an
overwriting file write keeps the file).  The cached `size` and `modified`
attributes of a document are derived data (byte size of the content,
filesystem mtime) and are not carried separately; the byte size is
recomputed where the code reads it (`String.utf8ByteSize`).
-/

namespace DocAssistant

/-- Lookup in an association list (Python `m[k]` / reading a file):
the first binding for the key, if any. -/
def lookupA {α : Type} (m : List (String × α)) (k : String) : Option α :=
  (m.find? (fun p => p.1 == k)).map (fun p => p.2)

/-- Writing a binding (Python `m[k] = v` / `filepath.write_text`):
an existing key is updated in place, a new key is appended. -/
def setA {α : Type} (m : List (String × α)) (k : String) (v : α) : List (String × α) :=
  if m.any (fun p => p.1 == k) then
    m.map (fun p => if p.1 == k then (k, v) else p)
  else
    m ++ [(k, v)]

/-- Deleting a binding (Python `del m[k]` / `filepath.unlink`). -/
def eraseA {α : Type} (m : List (String × α)) (k : String) : List (String × α) :=
  m.filter (fun p => !(p.1 == k))

/-- The whole mutable state of the server: on-disk documents
(`docFiles`, document id ↦ content of `<id>.md`), on-disk snapshots
(`verFiles`, file stem `<id>_<timestamp>` ↦ content), the in-memory
`document_cache` (`docCache`, id ↦ content), the in-memory `tags_cache`
and the contents of the persisted `.tags.json` (`tagsFile`). -/
structure State where
  docFiles : List (String × String)
  verFiles : List (String × String)
  docCache : List (String × String)
  tagsCache : List (String × List String)
  tagsFile : List (String × List String)
deriving DecidableEq

/-- `load_documents`: rebuilds the whole document cache from the documents
directory (content byte-for-byte from disk). -/
def load_documents (s : State) : State :=
  { s with docCache := s.docFiles }

/-- The `f"Error: Document '{doc_id}' not found."` message. -/
def notFoundMsg (doc_id : String) : String :=
  "Error: Document '" ++ doc_id ++ "' not found."

/-- Resource `doc://{doc_id}` (`get_document`): the cached content of the
document, or a not-found message. -/
def get_document (s : State) (doc_id : String) : String :=
  match lookupA s.docCache doc_id with
  | none => notFoundMsg doc_id
  | some c => c

/-- `_save_version`: no-op when the document is absent from the cache,
otherwise writes a snapshot file `<doc_id>_<now>.md` holding the document's
cached content.  `now` is `datetime.now().strftime("%Y%m%d_%H%M%S")`,
passed explicitly here. -/
def save_version (s : State) (now doc_id : String) : State :=
  match lookupA s.docCache doc_id with
  | none => s
  | some c => { s with verFiles := setA s.verFiles (doc_id ++ "_" ++ now) c }

/-- `update_document`: not-found error when the document is absent from the
cache; otherwise snapshots the current content, writes the new content to
the document's file and reloads the cache. -/
def update_document (s : State) (now doc_id new_content : String) : State × String :=
  if (lookupA s.docCache doc_id).isNone then
    (s, notFoundMsg doc_id)
  else
    let s1 := save_version s now doc_id
    let s2 := { s1 with docFiles := setA s1.docFiles doc_id new_content }
    (load_documents s2, "Updated document '" ++ doc_id ++ "'. Previous version saved.")

/-! ### Association-list lemmas -/

theorem lookupA_append_of_none {α : Type} (m m' : List (String × α)) (k : String)
    (h : lookupA m k = none) : lookupA (m ++ m') k = lookupA m' k := by
  unfold lookupA at *
  rw [List.find?_append]
  cases hf : m.find? (fun p => p.1 == k) with
  | none => simp [hf]
  | some p => rw [hf] at h; simp at h

theorem lookupA_append_of_some {α : Type} (m m' : List (String × α)) (k : String) (v : α)
    (h : lookupA m k = some v) : lookupA (m ++ m') k = some v := by
  unfold lookupA at *
  rw [List.find?_append]
  cases hf : m.find? (fun p => p.1 == k) with
  | none => rw [hf] at h; simp at h
  | some p => rw [hf] at h; simp [hf, h]

theorem any_key_eq_false_of_lookupA_none {α : Type} (m : List (String × α)) (k : String)
    (h : lookupA m k = none) : m.any (fun p => p.1 == k) = false := by
  unfold lookupA at h
  cases hf : m.find? (fun p => p.1 == k) with
  | some p => rw [hf] at h; simp at h
  | none => exact List.any_eq_false.mpr (List.find?_eq_none.mp hf)

theorem lookupA_of_any_eq_false {α : Type} (m : List (String × α)) (k : String)
    (h : m.any (fun p => p.1 == k) = false) : lookupA m k = none := by
  unfold lookupA
  rw [List.find?_eq_none.mpr (List.any_eq_false.mp h)]
  rfl

/-- Writing a fresh key appends the binding at the end. -/
theorem setA_of_none {α : Type} (m : List (String × α)) (k : String) (v : α)
    (h : lookupA m k = none) : setA m k v = m ++ [(k, v)] := by
  unfold setA
  rw [any_key_eq_false_of_lookupA_none m k h]
  simp

theorem lookupA_map_update {α : Type} (m : List (String × α)) (k : String) (v : α)
    (h : m.any (fun p => p.1 == k) = true) :
    lookupA (m.map (fun p => if p.1 == k then (k, v) else p)) k = some v := by
  induction m with
  | nil => simp at h
  | cons p t ih =>
    by_cases hp : (p.1 == k) = true
    · unfold lookupA
      rw [List.map_cons, if_pos hp, List.find?_cons_of_pos _ (by simp)]
      rfl
    · have ht : t.any (fun q => q.1 == k) = true := by
        simp only [List.any_cons] at h
        rcases Bool.or_eq_true_iff.mp h with h1 | h1
        · exact absurd h1 hp
        · exact h1
      unfold lookupA
      rw [List.map_cons, if_neg hp, List.find?_cons_of_neg _ (by simpa using hp)]
      exact ih ht

theorem lookupA_singleton_self {α : Type} (k : String) (v : α) :
    lookupA [(k, v)] k = some v := by
  simp [lookupA]

theorem lookupA_setA_self {α : Type} (m : List (String × α)) (k : String) (v : α) :
    lookupA (setA m k v) k = some v := by
  unfold setA
  by_cases hany : m.any (fun p => p.1 == k) = true
  · rw [if_pos hany]
    exact lookupA_map_update m k v hany
  · have hanyf : m.any (fun p => p.1 == k) = false := by
      cases hb : m.any (fun p => p.1 == k) with
      | false => rfl
      | true => exact absurd hb hany
    rw [if_neg hany, lookupA_append_of_none m _ k (lookupA_of_any_eq_false m k hanyf)]
    exact lookupA_singleton_self k v

theorem lookupA_eraseA_self {α : Type} (m : List (String × α)) (k : String) :
    lookupA (eraseA m k) k = none := by
  unfold lookupA eraseA
  rw [List.find?_eq_none.mpr]
  · rfl
  · intro p hp
    have h2 := (List.mem_filter.mp hp).2
    simp only [Bool.not_eq_true'] at h2
    simp [h2]

/-! ### C1: update_document -/

/-- C1: for a document present in the cache with content `c1` and any new
content `c2`, `update_document` succeeds, produces exactly one new version
snapshot whose stored content is `c1` (the snapshot file name
`doc_id ++ "_" ++ now` being fresh, i.e. no same-second collision, cf. the
spec's §9 note), and afterwards `get_document` returns `c2`. -/
theorem update_document_correct (s : State) (now doc_id c1 c2 : String)
    (hc : lookupA s.docCache doc_id = some c1)
    (hfresh : lookupA s.verFiles (doc_id ++ "_" ++ now) = none) :
    (update_document s now doc_id c2).2
        = "Updated document '" ++ doc_id ++ "'. Previous version saved." ∧
    (update_document s now doc_id c2).1.verFiles
        = s.verFiles ++ [(doc_id ++ "_" ++ now, c1)] ∧
    get_document (update_document s now doc_id c2).1 doc_id = c2 := by
  unfold update_document save_version
  simp only [hc, Option.isNone_some, Bool.false_eq_true, if_false, load_documents]
  rw [setA_of_none _ _ _ hfresh]
  refine ⟨by trivial, rfl, ?_⟩
  unfold get_document
  rw [lookupA_setA_self]

/-- Witness for C1 at a concrete state. -/
theorem update_document_correct_witness :
    (update_document ⟨[("a", "hello")], [], [("a", "hello")], [], []⟩
        "20240101_120000" "a" "new").2
      = "Updated document 'a'. Previous version saved." ∧
    (update_document ⟨[("a", "hello")], [], [("a", "hello")], [], []⟩
        "20240101_120000" "a" "new").1.verFiles
      = [] ++ [("a" ++ "_" ++ "20240101_120000", "hello")] ∧
    get_document (update_document ⟨[("a", "hello")], [], [("a", "hello")], [], []⟩
        "20240101_120000" "a" "new").1 "a" = "new" :=
  update_document_correct ⟨[("a", "hello")], [], [("a", "hello")], [], []⟩
    "20240101_120000" "a" "hello" "new" (by decide) (by decide)

/-! ### delete_document -/

/-- `delete_document`: not-found error when the document is absent from the
cache; a warning (and no mutation) when `confirm` is false; otherwise
snapshots the current content, unlinks the document's file, drops the
document's tag entry (persisting the index) when present, and reloads the
cache. -/
def delete_document (s : State) (now doc_id : String) (confirm : Bool) : State × String :=
  if (lookupA s.docCache doc_id).isNone then
    (s, notFoundMsg doc_id)
  else if !confirm then
    (s, "Warning: This will delete '" ++ doc_id ++ "'. Call again with confirm=True to proceed.")
  else
    let s1 := save_version s now doc_id
    let s2 := { s1 with docFiles := eraseA s1.docFiles doc_id }
    let s3 :=
      if (lookupA s2.tagsCache doc_id).isSome then
        let tc := eraseA s2.tagsCache doc_id
        { s2 with tagsCache := tc, tagsFile := tc }
      else s2
    (load_documents s3, "Successfully deleted document '" ++ doc_id ++ "'")

/-- C2: confirmed deletion of a cached document removes its file, removes
its tag entry, and appends exactly one snapshot holding the pre-delete
content (fresh snapshot name, tag file in sync with the tag cache). -/
theorem delete_document_correct (s : State) (now doc_id c1 : String)
    (hc : lookupA s.docCache doc_id = some c1)
    (_hdisk : (lookupA s.docFiles doc_id).isSome = true)
    (hsync : s.tagsFile = s.tagsCache)
    (hfresh : lookupA s.verFiles (doc_id ++ "_" ++ now) = none) :
    lookupA (delete_document s now doc_id true).1.docFiles doc_id = none ∧
    lookupA (delete_document s now doc_id true).1.tagsCache doc_id = none ∧
    lookupA (delete_document s now doc_id true).1.tagsFile doc_id = none ∧
    (delete_document s now doc_id true).1.verFiles
        = s.verFiles ++ [(doc_id ++ "_" ++ now, c1)] ∧
    (delete_document s now doc_id true).2
        = "Successfully deleted document '" ++ doc_id ++ "'" := by
  unfold delete_document save_version
  simp only [hc, Option.isNone_some, Bool.false_eq_true, if_false, Bool.not_true,
    load_documents]
  rw [setA_of_none _ _ _ hfresh]
  by_cases htag : (lookupA s.tagsCache doc_id).isSome = true
  · simp only [htag, if_pos]
    exact ⟨lookupA_eraseA_self _ _, lookupA_eraseA_self _ _, lookupA_eraseA_self _ _,
      trivial, trivial⟩
  · simp only [htag, Bool.false_eq_true, if_false]
    have hnone : lookupA s.tagsCache doc_id = none := by
      cases hb : lookupA s.tagsCache doc_id with
      | none => rfl
      | some l => rw [hb] at htag; simp at htag
    exact ⟨lookupA_eraseA_self _ _, hnone, by rw [hsync]; exact hnone, trivial, trivial⟩

/-- Witness for C2 at a concrete state. -/
theorem delete_document_correct_witness :
    lookupA (delete_document ⟨[("a", "hi")], [], [("a", "hi")], [("a", ["draft"])],
        [("a", ["draft"])]⟩ "20240101_120000" "a" true).1.docFiles "a" = none ∧
    lookupA (delete_document ⟨[("a", "hi")], [], [("a", "hi")], [("a", ["draft"])],
        [("a", ["draft"])]⟩ "20240101_120000" "a" true).1.tagsCache "a" = none ∧
    lookupA (delete_document ⟨[("a", "hi")], [], [("a", "hi")], [("a", ["draft"])],
        [("a", ["draft"])]⟩ "20240101_120000" "a" true).1.tagsFile "a" = none ∧
    (delete_document ⟨[("a", "hi")], [], [("a", "hi")], [("a", ["draft"])],
        [("a", ["draft"])]⟩ "20240101_120000" "a" true).1.verFiles
      = [] ++ [("a" ++ "_" ++ "20240101_120000", "hi")] ∧
    (delete_document ⟨[("a", "hi")], [], [("a", "hi")], [("a", ["draft"])],
        [("a", ["draft"])]⟩ "20240101_120000" "a" true).2
      = "Successfully deleted document '" ++ "a" ++ "'" :=
  delete_document_correct ⟨[("a", "hi")], [], [("a", "hi")], [("a", ["draft"])],
    [("a", ["draft"])]⟩ "20240101_120000" "a" "hi" (by decide) (by decide) (by decide)
    (by decide)

/-- C3: calling delete without confirmation on a cached document mutates
nothing at all (same file system, version archive, caches and tag file)
and returns the confirmation warning. -/
theorem delete_document_no_confirm (s : State) (now doc_id : String)
    (hc : (lookupA s.docCache doc_id).isSome = true) :
    delete_document s now doc_id false
      = (s, "Warning: This will delete '" ++ doc_id ++
          "'. Call again with confirm=True to proceed.") := by
  unfold delete_document
  have hn : (lookupA s.docCache doc_id).isNone = false := by
    cases hb : lookupA s.docCache doc_id with
    | none => rw [hb] at hc; simp at hc
    | some c => rfl
  simp [hn]

/-- Witness for C3 at a concrete state. -/
theorem delete_document_no_confirm_witness :
    delete_document ⟨[("a", "hi")], [("a_20230101_000000", "old")], [("a", "hi")],
        [("a", ["draft"])], [("a", ["draft"])]⟩ "20240101_120000" "a" false
      = (⟨[("a", "hi")], [("a_20230101_000000", "old")], [("a", "hi")],
          [("a", ["draft"])], [("a", ["draft"])]⟩,
         "Warning: This will delete '" ++ "a" ++
           "'. Call again with confirm=True to proceed.") :=
  delete_document_no_confirm ⟨[("a", "hi")], [("a_20230101_000000", "old")],
    [("a", "hi")], [("a", ["draft"])], [("a", ["draft"])]⟩ "20240101_120000" "a"
    (by decide)

/-! ### create_document -/

/-- One character of the class `[a-zA-Z0-9_-]`. -/
def validIdChar (c : Char) : Bool :=
  ('a' ≤ c && c ≤ 'z') || ('A' ≤ c && c ≤ 'Z') || ('0' ≤ c && c ≤ '9')
    || c == '_' || c == '-'

/-- Python `re.match(r'^[a-zA-Z0-9_-]+$', doc_id)` as a Bool: a non-empty
run of identifier characters covering the whole string (`$` also matches
just before one trailing newline, a quirk of Python's `$`). -/
def docIdPatternMatch (doc_id : String) : Bool :=
  let core := if doc_id.data.getLast? == some '\n' then doc_id.data.dropLast
              else doc_id.data
  !core.isEmpty && core.all validIdChar

/-- `create_document`: validates the identifier, refuses an existing file
unless `overwrite` is set, snapshots the old content when overwriting,
writes the file and reloads the cache.  The existence checks are against
the documents directory (`filepath.exists()`), not the cache. -/
def create_document (s : State) (now doc_id content : String) (overwrite : Bool) :
    State × String :=
  if !(docIdPatternMatch doc_id) then
    (s, "Error: doc_id must contain only letters, numbers, underscores, and hyphens.")
  else if (lookupA s.docFiles doc_id).isSome && !overwrite then
    (s, "Error: Document '" ++ doc_id ++ "' already exists. Use overwrite=True to replace it.")
  else
    let s1 := if (lookupA s.docFiles doc_id).isSome && overwrite then
                save_version s now doc_id
              else s
    let s2 := { s1 with docFiles := setA s1.docFiles doc_id content }
    (load_documents s2,
      "Successfully created document '" ++ doc_id ++ "' ("
        ++ toString content.length ++ " characters)")

/-- C4: creating a document with a valid identifier (no file with that
identifier existing yet) succeeds and a subsequent `get_document` returns
exactly the created content. -/
theorem create_then_get (s : State) (now doc_id c : String)
    (hid : docIdPatternMatch doc_id = true)
    (habs : lookupA s.docFiles doc_id = none) :
    (create_document s now doc_id c false).2
        = "Successfully created document '" ++ doc_id ++ "' ("
            ++ toString c.length ++ " characters)" ∧
    get_document (create_document s now doc_id c false).1 doc_id = c := by
  unfold create_document
  simp only [hid, Bool.not_true, Bool.false_eq_true, if_false, habs, Option.isSome_none,
    Bool.false_and, Bool.and_false, load_documents]
  refine ⟨by trivial, ?_⟩
  unfold get_document
  rw [lookupA_setA_self]

/-- Witness for C4 at a concrete state. -/
theorem create_then_get_witness :
    (create_document ⟨[], [], [], [], []⟩ "20240101_120000" "note-1" "hello world"
        false).2
      = "Successfully created document '" ++ "note-1" ++ "' ("
          ++ toString ("hello world" : String).length ++ " characters)" ∧
    get_document (create_document ⟨[], [], [], [], []⟩ "20240101_120000" "note-1"
        "hello world" false).1 "note-1" = "hello world" :=
  create_then_get ⟨[], [], [], [], []⟩ "20240101_120000" "note-1" "hello world"
    (by decide) (by decide)

/-! ### Tags -/

/-- One character of Python's ASCII whitespace set for `str.strip()`. -/
def isSpaceChar (c : Char) : Bool :=
  c == ' ' || c == '\t' || c == '\n' || c == '\r' || c == '\x0b' || c == '\x0c'

/-- Python `s.strip()`: drop leading and trailing whitespace (ASCII model;
Python also strips some Unicode spaces). -/
def pyStrip (t : String) : String :=
  String.mk (((t.data.dropWhile isSpaceChar).reverse.dropWhile isSpaceChar).reverse)

/-- Python `tag.lower().strip()` (ASCII model of `str.lower`, which is what
`Char.toLower` implements; non-ASCII letters are left unchanged). -/
def normalizeTag (t : String) : String :=
  pyStrip (String.mk (t.data.map Char.toLower))

/-- `add_tag`: not-found error when the document is absent from the cache,
validation error when the normalized tag is empty, "already exists" no-op
when the tag is on the document, otherwise appends the tag to the
document's list (creating it) and persists the whole index. -/
def add_tag (s : State) (doc_id tag : String) : State × String :=
  if (lookupA s.docCache doc_id).isNone then
    (s, notFoundMsg doc_id)
  else
    let t := normalizeTag tag
    if t.isEmpty then
      (s, "Error: Tag cannot be empty.")
    else
      let tc0 := if (lookupA s.tagsCache doc_id).isNone then
                   s.tagsCache ++ [(doc_id, [])]
                 else s.tagsCache
      let lst := (lookupA tc0 doc_id).getD []
      if t ∈ lst then
        ({ s with tagsCache := tc0 },
          "Tag '" ++ t ++ "' already exists on document '" ++ doc_id ++ "'.")
      else
        let tc := setA tc0 doc_id (lst ++ [t])
        ({ s with tagsCache := tc, tagsFile := tc },
          "Added tag '" ++ t ++ "' to document '" ++ doc_id ++ "'")

/-- `remove_tag`: not-found error when the document is absent from the
cache, tag-not-found when the index has no entry or the entry lacks the
normalized tag, otherwise removes the first occurrence and persists. -/
def remove_tag (s : State) (doc_id tag : String) : State × String :=
  if (lookupA s.docCache doc_id).isNone then
    (s, notFoundMsg doc_id)
  else
    let t := normalizeTag tag
    match lookupA s.tagsCache doc_id with
    | none => (s, "Tag '" ++ t ++ "' not found on document '" ++ doc_id ++ "'.")
    | some lst =>
      if t ∈ lst then
        let tc := setA s.tagsCache doc_id (lst.erase t)
        ({ s with tagsCache := tc, tagsFile := tc },
          "Removed tag '" ++ t ++ "' from document '" ++ doc_id ++ "'")
      else
        (s, "Tag '" ++ t ++ "' not found on document '" ++ doc_id ++ "'.")

/-- C10: `remove_tag` on a document absent from the document cache fails
with the not-found error and leaves the whole state — the tag index
included — untouched, even when the index still holds the tag. -/
theorem remove_tag_absent_document (s : State) (doc_id tag : String)
    (hc : lookupA s.docCache doc_id = none) :
    remove_tag s doc_id tag = (s, notFoundMsg doc_id) := by
  unfold remove_tag
  simp [hc]

/-- Witness for C10: the cache is empty while the index still carries the
normalized tag for the document. -/
theorem remove_tag_absent_document_witness :
    remove_tag ⟨[], [], [], [("a", ["draft"])], [("a", ["draft"])]⟩ "a" "Draft"
      = (⟨[], [], [], [("a", ["draft"])], [("a", ["draft"])]⟩, notFoundMsg "a") :=
  remove_tag_absent_document ⟨[], [], [], [("a", ["draft"])], [("a", ["draft"])]⟩
    "a" "Draft" (by decide)

/-! ### restore_version -/

/-- `restore_version`: not-found error when no snapshot file
`<doc_id>_<version_id>.md` exists; otherwise snapshots the current content
first when the document is cached, then writes the snapshot's content
(read after that save, as the code does) to the document's file, then
reloads the cache. -/
def restore_version (s : State) (now doc_id version_id : String) : State × String :=
  if (lookupA s.verFiles (doc_id ++ "_" ++ version_id)).isNone then
    (s, "Error: Version '" ++ version_id ++ "' not found for document '"
        ++ doc_id ++ "'.")
  else
    let s1 := if (lookupA s.docCache doc_id).isSome then save_version s now doc_id
              else s
    let content := (lookupA s1.verFiles (doc_id ++ "_" ++ version_id)).getD ""
    let s2 := { s1 with docFiles := setA s1.docFiles doc_id content }
    (load_documents s2,
      "Restored document '" ++ doc_id ++ "' to version '" ++ version_id ++ "'")

/-- C5: restoring fails with not-found when the snapshot is absent;
when the snapshot exists and the document is cached with content `c1`,
exactly one new snapshot holding `c1` is saved first, the document's
content becomes the restored snapshot's content `vc`, and the cache is
reloaded from disk (fresh snapshot name for the pre-restore save). -/
theorem restore_version_correct (s : State) (now doc_id version_id c1 vc : String)
    (hfresh : lookupA s.verFiles (doc_id ++ "_" ++ now) = none) :
    (lookupA s.verFiles (doc_id ++ "_" ++ version_id) = none →
      restore_version s now doc_id version_id
        = (s, "Error: Version '" ++ version_id ++ "' not found for document '"
              ++ doc_id ++ "'.")) ∧
    (lookupA s.verFiles (doc_id ++ "_" ++ version_id) = some vc →
     lookupA s.docCache doc_id = some c1 →
      (restore_version s now doc_id version_id).1.verFiles
          = s.verFiles ++ [(doc_id ++ "_" ++ now, c1)] ∧
      get_document (restore_version s now doc_id version_id).1 doc_id = vc ∧
      (restore_version s now doc_id version_id).1.docCache
          = (restore_version s now doc_id version_id).1.docFiles ∧
      (restore_version s now doc_id version_id).2
          = "Restored document '" ++ doc_id ++ "' to version '" ++ version_id ++ "'") := by
  constructor
  · intro hnone
    unfold restore_version
    simp [hnone]
  · intro hver hc
    have hcontent : lookupA (s.verFiles ++ [(doc_id ++ "_" ++ now, c1)])
        (doc_id ++ "_" ++ version_id) = some vc :=
      lookupA_append_of_some _ _ _ _ hver
    unfold restore_version save_version
    simp only [hver, Option.isNone_some, Bool.false_eq_true, if_false, hc,
      Option.isSome_some, if_true, load_documents]
    rw [setA_of_none _ _ _ hfresh]
    simp only [hcontent, Option.getD_some]
    refine ⟨by first | rfl | trivial, ?_, by first | rfl | trivial,
      by first | rfl | trivial⟩
    unfold get_document
    rw [lookupA_setA_self]

/-- Witness for C5 (the success branch, at a concrete state). -/
theorem restore_version_correct_witness :
    (restore_version ⟨[("a", "new")], [("a_20230101_000000", "hello")],
        [("a", "new")], [], []⟩ "20240101_120000" "a" "20230101_000000").1.verFiles
      = [("a_20230101_000000", "hello")]
          ++ [("a" ++ "_" ++ "20240101_120000", "new")] ∧
    get_document (restore_version ⟨[("a", "new")], [("a_20230101_000000", "hello")],
        [("a", "new")], [], []⟩ "20240101_120000" "a" "20230101_000000").1 "a"
      = "hello" ∧
    (restore_version ⟨[("a", "new")], [("a_20230101_000000", "hello")],
        [("a", "new")], [], []⟩ "20240101_120000" "a" "20230101_000000").1.docCache
      = (restore_version ⟨[("a", "new")], [("a_20230101_000000", "hello")],
        [("a", "new")], [], []⟩ "20240101_120000" "a" "20230101_000000").1.docFiles ∧
    (restore_version ⟨[("a", "new")], [("a_20230101_000000", "hello")],
        [("a", "new")], [], []⟩ "20240101_120000" "a" "20230101_000000").2
      = "Restored document '" ++ "a" ++ "' to version '" ++ "20230101_000000" ++ "'" :=
  (restore_version_correct ⟨[("a", "new")], [("a_20230101_000000", "hello")],
      [("a", "new")], [], []⟩ "20240101_120000" "a" "20230101_000000" "new" "hello"
      (by decide)).2 (by decide) (by decide)

/-- C9: restoring a snapshot of a document that is absent from the cache
recreates the document on disk with the snapshot's content and leaves the
version archive unchanged (no new snapshot is saved). -/
theorem restore_version_uncached (s : State) (now doc_id version_id vc : String)
    (hc : lookupA s.docCache doc_id = none)
    (hver : lookupA s.verFiles (doc_id ++ "_" ++ version_id) = some vc) :
    (restore_version s now doc_id version_id).1.verFiles = s.verFiles ∧
    lookupA (restore_version s now doc_id version_id).1.docFiles doc_id = some vc ∧
    (restore_version s now doc_id version_id).1.docCache
        = (restore_version s now doc_id version_id).1.docFiles ∧
    (restore_version s now doc_id version_id).2
        = "Restored document '" ++ doc_id ++ "' to version '" ++ version_id ++ "'" := by
  unfold restore_version
  simp only [hver, Option.isNone_some, Bool.false_eq_true, if_false, hc,
    Option.isSome_none, if_false, Option.getD_some, load_documents]
  refine ⟨by first | rfl | trivial, lookupA_setA_self _ _ _,
    by first | rfl | trivial, by first | rfl | trivial⟩

/-- Witness for C9 at a concrete state. -/
theorem restore_version_uncached_witness :
    (restore_version ⟨[], [("a_20230101_000000", "hello")], [], [], []⟩
        "20240101_120000" "a" "20230101_000000").1.verFiles
      = [("a_20230101_000000", "hello")] ∧
    lookupA (restore_version ⟨[], [("a_20230101_000000", "hello")], [], [], []⟩
        "20240101_120000" "a" "20230101_000000").1.docFiles "a" = some "hello" ∧
    (restore_version ⟨[], [("a_20230101_000000", "hello")], [], [], []⟩
        "20240101_120000" "a" "20230101_000000").1.docCache
      = (restore_version ⟨[], [("a_20230101_000000", "hello")], [], [], []⟩
        "20240101_120000" "a" "20230101_000000").1.docFiles ∧
    (restore_version ⟨[], [("a_20230101_000000", "hello")], [], [], []⟩
        "20240101_120000" "a" "20230101_000000").2
      = "Restored document '" ++ "a" ++ "' to version '" ++ "20230101_000000" ++ "'" :=
  restore_version_uncached ⟨[], [("a_20230101_000000", "hello")], [], [], []⟩
    "20240101_120000" "a" "20230101_000000" "hello" (by decide) (by decide)

/-! ### list_tags counting -/

/-- The tally `list_tags` builds (`tag_counts[tag] += 1` over every
occurrence in every document's list), restricted to one tag: the total
number of occurrences of `t` across the index. -/
def countsSum (m : List (String × List String)) (t : String) : Nat :=
  (m.map (fun p => p.2.count t)).sum

/-- The count `list_tags` reports for tag `t`. -/
def list_tags_count (s : State) (t : String) : Nat :=
  countsSum s.tagsCache t

theorem countsSum_nil (t : String) : countsSum [] t = 0 := rfl

theorem countsSum_cons (p : String × List String) (m : List (String × List String))
    (t : String) : countsSum (p :: m) t = p.2.count t + countsSum m t := by
  simp [countsSum]

theorem countsSum_eq_zero (m : List (String × List String)) (t : String)
    (h : ∀ p ∈ m, t ∉ p.2) : countsSum m t = 0 := by
  induction m with
  | nil => rfl
  | cons p tail ih =>
    rw [countsSum_cons, List.count_eq_zero.mpr (h p (by simp)), ih
      (fun q hq => h q (by simp [hq]))]

theorem any_key_eq_true_of_lookupA_some {α : Type} (m : List (String × α))
    (k : String) (v : α) (h : lookupA m k = some v) :
    m.any (fun p => p.1 == k) = true := by
  cases hb : m.any (fun p => p.1 == k) with
  | true => rfl
  | false =>
    rw [lookupA_of_any_eq_false m k hb] at h
    exact absurd h (by simp)

theorem lookupA_mem {α : Type} (m : List (String × α)) (k : String) (v : α)
    (h : lookupA m k = some v) : ∃ p ∈ m, p.2 = v := by
  unfold lookupA at h
  cases hf : m.find? (fun p => p.1 == k) with
  | none => rw [hf] at h; simp at h
  | some p =>
    rw [hf] at h
    simp at h
    exact ⟨p, List.mem_of_find?_eq_some hf, h⟩

theorem setA_eq_map_of_any {α : Type} (m : List (String × α)) (k : String) (v : α)
    (h : m.any (fun p => p.1 == k) = true) :
    setA m k v = m.map (fun p => if p.1 == k then (k, v) else p) := by
  unfold setA
  rw [if_pos h]

/-- Updating the (unique) entry for `k` in an index that nowhere contains
the tag `t` makes the total count of `t` the count in the new list. -/
theorem countsSum_map_update (m : List (String × List String)) (k t : String)
    (w : List String)
    (hzero : ∀ p ∈ m, t ∉ p.2)
    (hnd : m.Pairwise (fun p q => p.1 ≠ q.1)) :
    countsSum (m.map (fun p => if p.1 == k then (k, w) else p)) t
      = if m.any (fun p => p.1 == k) then w.count t else 0 := by
  induction m with
  | nil => simp [countsSum]
  | cons p tail ih =>
    have hnd' := (List.pairwise_cons.mp hnd).2
    have hpt := (List.pairwise_cons.mp hnd).1
    have hz' : ∀ q ∈ tail, t ∉ q.2 := fun q hq => hzero q (by simp [hq])
    by_cases hp : (p.1 == k) = true
    · have hpk : p.1 = k := by simpa using hp
      have htail : tail.any (fun q => q.1 == k) = false := by
        rw [List.any_eq_false]
        intro q hq
        have : p.1 ≠ q.1 := hpt q hq
        simp only [beq_iff_eq]
        rw [← hpk]
        exact fun hqk => this hqk.symm
      rw [List.map_cons, if_pos hp, countsSum_cons, ih hz' hnd', htail]
      simp [hp]
    · rw [List.map_cons, if_neg hp, countsSum_cons,
        List.count_eq_zero.mpr (hzero p (by simp)), ih hz' hnd']
      have hpf : (p.1 == k) = false := by simpa using hp
      rw [List.any_cons, hpf, Bool.false_or, Nat.zero_add]

/-! ### C7: add_tag idempotence -/

/-- C7: two `add_tag` calls whose arguments normalize (lowercase, trimmed)
to the same non-empty tag `t` leave exactly one occurrence of `t` on the
document, and `list_tags` counts 1 for `t` (starting from an index that
does not contain `t` anywhere and has one entry per document, as the code
maintains). -/
theorem add_tag_idempotent (s : State) (doc_id t1 t2 t : String)
    (hdoc : (lookupA s.docCache doc_id).isSome = true)
    (h1 : normalizeTag t1 = t) (h2 : normalizeTag t2 = t)
    (ht : t.isEmpty = false)
    (hnew : ∀ p ∈ s.tagsCache, t ∉ p.2)
    (hkeys : s.tagsCache.Pairwise (fun p q => p.1 ≠ q.1)) :
    ((lookupA (add_tag (add_tag s doc_id t1).1 doc_id t2).1.tagsCache doc_id).getD
        []).count t = 1 ∧
    list_tags_count (add_tag (add_tag s doc_id t1).1 doc_id t2).1 t = 1 := by
  have hne : (lookupA s.docCache doc_id).isNone = false := by
    cases hb : lookupA s.docCache doc_id with
    | none => rw [hb] at hdoc; simp at hdoc
    | some c => rfl
  cases hcur : lookupA s.tagsCache doc_id with
  | none =>
    have hkd : ∀ p ∈ s.tagsCache, (p.1 == doc_id) = false := by
      intro p hp
      have h0 := List.any_eq_false.mp (any_key_eq_false_of_lookupA_none _ _ hcur) p hp
      cases hb : (p.1 == doc_id) with
      | false => rfl
      | true => exact absurd hb h0
    have hlst : lookupA (s.tagsCache ++ [(doc_id, [])]) doc_id = some [] := by
      rw [lookupA_append_of_none _ _ _ hcur]
      exact lookupA_singleton_self _ _
    have hr1 : add_tag s doc_id t1
        = ({ s with
              tagsCache := setA (s.tagsCache ++ [(doc_id, [])]) doc_id [t]
              tagsFile := setA (s.tagsCache ++ [(doc_id, [])]) doc_id [t] },
           "Added tag '" ++ t ++ "' to document '" ++ doc_id ++ "'") := by
      unfold add_tag
      simp only [hne, Bool.false_eq_true, if_false, h1, ht, hcur, Option.isNone_none,
        if_true, hlst, Option.getD_some, List.not_mem_nil, List.nil_append]
    have hlk : lookupA (setA (s.tagsCache ++ [(doc_id, [])]) doc_id [t]) doc_id
        = some [t] := lookupA_setA_self _ _ _
    have hr2 : add_tag (add_tag s doc_id t1).1 doc_id t2
        = ((add_tag s doc_id t1).1,
           "Tag '" ++ t ++ "' already exists on document '" ++ doc_id ++ "'.") := by
      rw [hr1]
      unfold add_tag
      simp only [hne, Bool.false_eq_true, if_false, h2, ht, hlk, Option.isNone_some,
        if_true, Option.getD_some, List.mem_singleton, if_pos]
    rw [hr2, hr1]
    have hany : (s.tagsCache ++ [(doc_id, [])]).any (fun p => p.1 == doc_id) = true := by
      simp [List.any_append]
    have hzero : ∀ p ∈ s.tagsCache ++ [(doc_id, [])], t ∉ p.2 := by
      intro p hp
      rcases List.mem_append.mp hp with hp1 | hp1
      · exact hnew p hp1
      · simp only [List.mem_singleton] at hp1
        subst hp1
        simp
    have hnd : (s.tagsCache ++ [(doc_id, ([] : List String))]).Pairwise
        (fun p q => p.1 ≠ q.1) := by
      refine List.pairwise_append.mpr ⟨hkeys, by simp, ?_⟩
      intro p hp q hq
      simp only [List.mem_singleton] at hq
      subst hq
      have h0 := hkd p hp
      simpa using h0
    constructor
    · simp [hlk]
    · unfold list_tags_count
      simp only
      rw [setA_eq_map_of_any _ _ _ hany, countsSum_map_update _ _ _ _ hzero hnd,
        if_pos hany]
      simp
  | some lst =>
    have hmem : ∃ p ∈ s.tagsCache, p.2 = lst := lookupA_mem _ _ _ hcur
    have htlst : t ∉ lst := by
      rcases hmem with ⟨p, hp, hpl⟩
      rw [← hpl]
      exact hnew p hp
    have hr1 : add_tag s doc_id t1
        = ({ s with
              tagsCache := setA s.tagsCache doc_id (lst ++ [t])
              tagsFile := setA s.tagsCache doc_id (lst ++ [t]) },
           "Added tag '" ++ t ++ "' to document '" ++ doc_id ++ "'") := by
      unfold add_tag
      simp only [hne, Bool.false_eq_true, if_false, h1, ht, hcur, Option.isNone_some,
        if_false, Option.getD_some, if_neg htlst]
    have hlk : lookupA (setA s.tagsCache doc_id (lst ++ [t])) doc_id
        = some (lst ++ [t]) := lookupA_setA_self _ _ _
    have hr2 : add_tag (add_tag s doc_id t1).1 doc_id t2
        = ((add_tag s doc_id t1).1,
           "Tag '" ++ t ++ "' already exists on document '" ++ doc_id ++ "'.") := by
      rw [hr1]
      unfold add_tag
      simp only [hne, Bool.false_eq_true, if_false, h2, ht, hlk, Option.isNone_some,
        if_true, Option.getD_some]
      rw [if_pos (by simp)]
    rw [hr2, hr1]
    have hany : s.tagsCache.any (fun p => p.1 == doc_id) = true :=
      any_key_eq_true_of_lookupA_some _ _ _ hcur
    constructor
    · simp only [hlk, Option.getD_some]
      rw [List.count_append, List.count_eq_zero.mpr htlst]
      simp
    · unfold list_tags_count
      simp only
      rw [setA_eq_map_of_any _ _ _ hany, countsSum_map_update _ _ _ _ hnew hkeys,
        if_pos hany, List.count_append, List.count_eq_zero.mpr htlst]
      simp

/-- Witness for C7 at a concrete state ("Draft" and " draft " both
normalize to "draft"). -/
theorem add_tag_idempotent_witness :
    ((lookupA (add_tag (add_tag ⟨[("a", "hi")], [], [("a", "hi")], [], []⟩
        "a" "Draft").1 "a" " draft ").1.tagsCache "a").getD []).count "draft" = 1 ∧
    list_tags_count (add_tag (add_tag ⟨[("a", "hi")], [], [("a", "hi")], [], []⟩
        "a" "Draft").1 "a" " draft ").1 "draft" = 1 :=
  add_tag_idempotent ⟨[("a", "hi")], [], [("a", "hi")], [], []⟩ "a" "Draft" " draft "
    "draft" (by decide) (by decide) (by decide) (by decide)
    (by intro p hp; simp at hp) (by simp)

/-! ### Search engine -/

/-- One-character comparison as Python `re` matches the escaped (hence
literal) pattern: exact when case-sensitive, case-folded otherwise
(ASCII model of `re.IGNORECASE`). -/
def charsMatch (case_sensitive : Bool) (a b : Char) : Bool :=
  if case_sensitive then a == b else a.toLower == b.toLower

/-- Does the pattern match at the head of the text? -/
def matchesAt (cs : Bool) : List Char → List Char → Bool
  | [], _ => true
  | _ :: _, [] => false
  | a :: qs, b :: ts => charsMatch cs a b && matchesAt cs qs ts

/-- All matches of the literal pattern, scanning left to right without
overlap exactly as `re.finditer` does: `(start, end)` pairs of code-point
offsets, `i` being the offset of the head of the remaining text.  After a
match the next `q.length - 1` positions are skipped (`skip` counts them
down), so the scan resumes at the end of the match, which is re.finditer's
non-overlapping rule.  The pattern is non-empty whenever `search_documents`
calls this (its guard rejects whitespace-only queries). -/
def findMatchesFrom (cs : Bool) (q : List Char) :
    List Char → Nat → Nat → List (Nat × Nat)
  | [], i, _ => if q.isEmpty then [(i, i)] else []
  | b :: rest, i, skip =>
    if 0 < skip then
      findMatchesFrom cs q rest (i + 1) (skip - 1)
    else if matchesAt cs q (b :: rest) then
      (i, i + q.length) :: findMatchesFrom cs q rest (i + 1) (q.length - 1)
    else
      findMatchesFrom cs q rest (i + 1) 0

/-- `list(re.finditer(re.escape(query), content, flags))`. -/
def findMatches (cs : Bool) (q content : String) : List (Nat × Nat) :=
  findMatchesFrom cs q.data content.data 0 0

/-- The `.replace("\n", " ")` applied to the excerpt, one character. -/
def flattenChar (c : Char) : Char :=
  if c == '\n' then ' ' else c

/-- The excerpt `search_documents` builds from the first match
`(ms, me)`: `content[start:end]` with `start = max(0, ms - 50)` and
`end = min(len(content), me + 50)`, newlines flattened to spaces, `"..."`
prepended when `start > 0` and appended when `end < len(content)`. -/
def excerptOf (content : List Char) (ms me : Nat) : String :=
  let start := ms - 50
  let stop := min content.length (me + 50)
  let ex := ((content.drop start).take (stop - start)).map flattenChar
  let ex1 := if start > 0 then '.' :: '.' :: '.' :: ex else ex
  let ex2 := if stop < content.length then ex1 ++ ['.', '.', '.'] else ex1
  String.mk ex2

/-- One entry of the `results` list `search_documents` accumulates
(`filename` is derived: `doc_id ++ ".md"`). -/
structure SearchHit where
  doc_id : String
  match_count : Nat
  excerpt : String
deriving DecidableEq

/-- The loop body of `search_documents` for one cached document. -/
def search_hit (cs : Bool) (q doc_id content : String) : Option SearchHit :=
  match findMatches cs q content with
  | [] => none
  | m :: ms => some ⟨doc_id, ms.length + 1, excerptOf content.data m.1 m.2⟩

/-- The `results` list, in cache iteration order. -/
def search_results (s : State) (q : String) (cs : Bool) : List SearchHit :=
  s.docCache.filterMap (fun p => search_hit cs q p.1 p.2)

/-- `search_documents`: validation error for a whitespace-only query,
otherwise the per-document match counts and excerpts. -/
def search_documents (s : State) (q : String) (cs : Bool) :
    Except String (List SearchHit) :=
  if (pyStrip q).isEmpty then
    Except.error "Error: Please provide a search query."
  else
    Except.ok (search_results s q cs)

theorem matchesAt_length_le (cs : Bool) (q t : List Char)
    (h : matchesAt cs q t = true) : q.length ≤ t.length := by
  induction q generalizing t with
  | nil => simp
  | cons a qs ih =>
    cases t with
    | nil => simp [matchesAt] at h
    | cons b ts =>
      simp only [matchesAt, Bool.and_eq_true] at h
      simpa using ih ts h.2

theorem findMatchesFrom_bounds (cs : Bool) (q : List Char) (t : List Char) :
    ∀ (i skip : Nat), ∀ m ∈ findMatchesFrom cs q t i skip,
      i ≤ m.1 ∧ m.2 = m.1 + q.length ∧ m.2 ≤ i + t.length := by
  induction t with
  | nil =>
    intro i skip m hm
    rw [findMatchesFrom] at hm
    by_cases hqe : q.isEmpty = true
    · rw [if_pos hqe] at hm
      simp only [List.mem_singleton] at hm
      subst hm
      have : q.length = 0 := by simpa [List.isEmpty_iff, List.length_eq_zero] using hqe
      simp [this]
    · rw [if_neg hqe] at hm
      simp at hm
  | cons b rest ih =>
    intro i skip m hm
    rw [findMatchesFrom] at hm
    by_cases hskip : 0 < skip
    · rw [if_pos hskip] at hm
      have h3 := ih (i + 1) (skip - 1) m hm
      refine ⟨by omega, h3.2.1, by simp; omega⟩
    · rw [if_neg hskip] at hm
      by_cases hmat : matchesAt cs q (b :: rest) = true
      · rw [if_pos hmat] at hm
        have hlen : q.length ≤ rest.length + 1 := by
          simpa using matchesAt_length_le cs q (b :: rest) hmat
        rcases List.mem_cons.mp hm with hm1 | hm1
        · subst hm1
          refine ⟨Nat.le_refl _, rfl, by simp; omega⟩
        · have h3 := ih (i + 1) (q.length - 1) m hm1
          refine ⟨by omega, h3.2.1, by simp; omega⟩
      · rw [if_neg hmat] at hm
        have h3 := ih (i + 1) 0 m hm
        refine ⟨by omega, h3.2.1, by simp; omega⟩

theorem findMatches_head (cs : Bool) (q c : String)
    (m : Nat × Nat) (ms : List (Nat × Nat)) (h : findMatches cs q c = m :: ms) :
    m.2 = m.1 + q.data.length ∧ m.2 ≤ c.data.length := by
  have hb := findMatchesFrom_bounds cs q.data c.data 0 0 m
    (by rw [show findMatchesFrom cs q.data c.data 0 0 = m :: ms from h]; simp)
  exact ⟨hb.2.1, by omega⟩

theorem take_split (l : List Char) (a b c : Nat) (hab : a ≤ b) (hbc : b ≤ c) :
    (l.drop a).take (c - a) = (l.drop a).take (b - a) ++ (l.drop b).take (c - b) := by
  have h1 : c - a = (b - a) + (c - b) := by omega
  have h2 : (l.drop a).drop (b - a) = l.drop b := by
    rw [List.drop_drop]
    congr 1
    omega
  rw [h1, List.take_add, h2]

/-- The single slice `content[start:end]` around a match decomposes into
the up-to-50 characters before the match, the matched text, and the
up-to-50 characters after it. -/
theorem slice_decomp (l : List Char) (s0 L : Nat) (hL : s0 + L ≤ l.length) :
    (l.drop (s0 - 50)).take (min l.length (s0 + L + 50) - (s0 - 50))
      = ((l.take s0).drop (s0 - 50)) ++ ((l.drop s0).take L)
          ++ ((l.drop (s0 + L)).take 50) := by
  have hfirst : (l.take s0).drop (s0 - 50) = (l.drop (s0 - 50)).take (s0 - (s0 - 50)) := by
    rw [List.drop_take]
  by_cases hend : s0 + L + 50 ≤ l.length
  · have hmin : min l.length (s0 + L + 50) = s0 + L + 50 := by omega
    rw [hmin, take_split l (s0 - 50) s0 (s0 + L + 50) (by omega) (by omega),
      take_split l s0 (s0 + L) (s0 + L + 50) (by omega) (by omega), hfirst]
    have h2 : s0 + L - s0 = L := by omega
    have h3 : s0 + L + 50 - (s0 + L) = 50 := by omega
    rw [h2, h3, List.append_assoc]
  · have hmin : min l.length (s0 + L + 50) = l.length := by omega
    have hlast : (l.drop (s0 + L)).take 50 = (l.drop (s0 + L)).take (l.length - (s0 + L)) := by
      rw [List.take_of_length_le, List.take_of_length_le]
      · simp
      · simp; omega
    rw [hmin, take_split l (s0 - 50) s0 l.length (by omega) (by omega),
      take_split l s0 (s0 + L) l.length (by omega) (by omega), hfirst]
    have h2 : s0 + L - s0 = L := by omega
    rw [h2, hlast, List.append_assoc]

theorem excerpt_assemble (p1 p2 : Prop) [Decidable p1] [Decidable p2] (B : List Char) :
    (if p2 then (if p1 then '.' :: '.' :: '.' :: B else B) ++ ['.', '.', '.']
        else (if p1 then '.' :: '.' :: '.' :: B else B))
      = (if p1 then ['.', '.', '.'] else []) ++ B
          ++ (if p2 then ['.', '.', '.'] else []) := by
  by_cases h1 : p1 <;> by_cases h2 : p2 <;> simp [h1, h2]

/-- The excerpt built by the code equals the spec's description: up to 50
characters before the match, the match, up to 50 characters after, with
ellipses exactly when the window stops short of a boundary. -/
theorem excerptOf_eq_spec (l : List Char) (s0 L : Nat) (hL : s0 + L ≤ l.length) :
    excerptOf l s0 (s0 + L)
      = String.mk ((if 50 < s0 then ['.', '.', '.'] else [])
          ++ (((l.take s0).drop (s0 - 50)) ++ ((l.drop s0).take L)
               ++ ((l.drop (s0 + L)).take 50)).map flattenChar
          ++ (if s0 + L + 50 < l.length then ['.', '.', '.'] else [])) := by
  have hc1 : (0 < s0 - 50) = (50 < s0) := propext (by omega)
  have hc2 : (min l.length (s0 + L + 50) < l.length) = (s0 + L + 50 < l.length) :=
    propext (by omega)
  simp only [excerptOf, gt_iff_lt]
  rw [slice_decomp l s0 L hL]
  simp only [hc1, hc2]
  exact congrArg String.mk (excerpt_assemble _ _ _)

/-- C8: for a non-empty query and a cached document with at least one
match, the search results contain an entry for that document carrying the
total match count and the excerpt of the first match: up to 50 characters
of context on each side of the match, `"..."` exactly when the window does
not reach the corresponding boundary, newlines replaced by spaces. -/
theorem search_documents_excerpt (s : State) (q : String) (cs : Bool)
    (d c : String) (m : Nat × Nat) (ms : List (Nat × Nat))
    (hq : (pyStrip q).isEmpty = false)
    (hmem : (d, c) ∈ s.docCache)
    (hm : findMatches cs q c = m :: ms) :
    ∃ hits, search_documents s q cs = Except.ok hits ∧
      (⟨d, ms.length + 1,
        String.mk ((if 50 < m.1 then ['.', '.', '.'] else [])
          ++ (((c.data.take m.1).drop (m.1 - 50))
               ++ ((c.data.drop m.1).take q.data.length)
               ++ ((c.data.drop m.2).take 50)).map flattenChar
          ++ (if m.2 + 50 < c.data.length then ['.', '.', '.'] else []))⟩ : SearchHit)
        ∈ hits := by
  have hb := findMatches_head cs q c m ms hm
  refine ⟨search_results s q cs, ?_, ?_⟩
  · unfold search_documents
    simp only [hq, Bool.false_eq_true, if_false]
  · have hsome : search_hit cs q d c
        = some ⟨d, ms.length + 1,
            String.mk ((if 50 < m.1 then ['.', '.', '.'] else [])
              ++ (((c.data.take m.1).drop (m.1 - 50))
                   ++ ((c.data.drop m.1).take q.data.length)
                   ++ ((c.data.drop m.2).take 50)).map flattenChar
              ++ (if m.2 + 50 < c.data.length then ['.', '.', '.'] else []))⟩ := by
      unfold search_hit
      rw [hm]
      have hL : m.1 + q.data.length ≤ c.data.length := by omega
      have hex := excerptOf_eq_spec c.data m.1 q.data.length hL
      show some (⟨d, ms.length + 1, excerptOf c.data m.1 m.2⟩ : SearchHit) = _
      rw [show m.2 = m.1 + q.data.length from hb.1, hex]
    exact List.mem_filterMap.mpr ⟨(d, c), hmem, hsome⟩

/-- Witness for C8: the query "world" matches "Hello\nWorld"
case-insensitively once, and the excerpt flattens the newline. -/
theorem search_documents_excerpt_witness :
    ∃ hits, search_documents ⟨[("a", "Hello\nWorld")], [], [("a", "Hello\nWorld")],
        [], []⟩ "world" false = Except.ok hits ∧
      (⟨"a", (([] : List (Nat × Nat))).length + 1,
        String.mk ((if 50 < (6, 11).1 then ['.', '.', '.'] else [])
          ++ ((("Hello\nWorld".data.take (6, 11).1).drop ((6, 11).1 - 50))
               ++ (("Hello\nWorld".data.drop (6, 11).1).take "world".data.length)
               ++ (("Hello\nWorld".data.drop (6, 11).2).take 50)).map flattenChar
          ++ (if (6, 11).2 + 50 < "Hello\nWorld".data.length then ['.', '.', '.']
              else []))⟩ : SearchHit) ∈ hits :=
  search_documents_excerpt ⟨[("a", "Hello\nWorld")], [], [("a", "Hello\nWorld")], [], []⟩
    "world" false "a" "Hello\nWorld" (6, 11) [] (by decide) (by decide) (by decide)

/-! ### Version listing -/

/-- The glob `<doc_id>_*.md` applied to a version file `<stem>.md`:
the stem starts with `doc_id ++ "_"` (every stem the archive writes has
the `.md` extension and no other dot, so the glob reduces to this). -/
def matchesGlob (doc_id stem : String) : Bool :=
  (doc_id.data ++ ['_']).isPrefixOf stem.data

/-- The 15-character canonical `%Y%m%d_%H%M%S` timestamp shape. -/
def canonicalTSChars : List Char → Bool
  | [y1, y2, y3, y4, m1, m2, d1, d2, u, h1, h2, n1, n2, s1, s2] =>
    u == '_' && [y1, y2, y3, y4, m1, m2, d1, d2, h1, h2, n1, n2, s1, s2].all Char.isDigit
  | _ => false

/-- The document a snapshot file belongs to.  `_save_version` names the
file `<id>_<timestamp>.md` with a 15-character timestamp, so the owner is
the stem minus its last 16 characters (well defined: a canonical timestamp
suffix determines the split uniquely). -/
def snapshotOwner (stem : String) : Option String :=
  let cs := stem.data
  if 17 ≤ cs.length then
    match cs.drop (cs.length - 16) with
    | '_' :: ts =>
      if canonicalTSChars ts then some (String.mk (cs.take (cs.length - 16)))
      else none
    | _ => none
  else none

def digitVal (c : Char) : Nat := c.toNat - 48

def isLeapYear (y : Nat) : Bool :=
  (y % 4 == 0 && y % 100 != 0) || y % 400 == 0

def daysInMonth (y mo : Nat) : Nat :=
  if mo == 2 then (if isLeapYear y then 29 else 28)
  else if mo == 4 || mo == 6 || mo == 9 || mo == 11 then 30
  else 31

/-- Modelled `datetime.strptime(ts, "%Y%m%d_%H%M%S")` for identifiers of
the canonical shape the archive writes (4+2+2 digits, `_`, 6 digits):
the parsed fields when they form a valid datetime, `none` (Python raises
`ValueError`, caught by the caller) otherwise. -/
def parseTS (ts : String) : Option (Nat × Nat × Nat × Nat × Nat × Nat) :=
  match ts.data with
  | [y1, y2, y3, y4, m1, m2, d1, d2, u, h1, h2, n1, n2, s1, s2] =>
    if u == '_' && [y1, y2, y3, y4, m1, m2, d1, d2, h1, h2, n1, n2,
        s1, s2].all Char.isDigit then
      let y := 1000 * digitVal y1 + 100 * digitVal y2 + 10 * digitVal y3 + digitVal y4
      let mo := 10 * digitVal m1 + digitVal m2
      let dd := 10 * digitVal d1 + digitVal d2
      let hh := 10 * digitVal h1 + digitVal h2
      let mi := 10 * digitVal n1 + digitVal n2
      let ss := 10 * digitVal s1 + digitVal s2
      if 1 ≤ y && 1 ≤ mo && mo ≤ 12 && 1 ≤ dd && dd ≤ daysInMonth y mo
          && hh ≤ 23 && mi ≤ 59 && ss ≤ 59 then
        some (y, mo, dd, hh, mi, ss)
      else none
    else none
  | _ => none

def padNum (w n : Nat) : String :=
  let str := toString n
  String.mk (List.replicate (w - str.length) '0') ++ str

/-- `timestamp.strftime("%Y-%m-%d %H:%M:%S")`. -/
def formatTS : Nat × Nat × Nat × Nat × Nat × Nat → String
  | (y, mo, d, h, mi, s) =>
    padNum 4 y ++ "-" ++ padNum 2 mo ++ "-" ++ padNum 2 d ++ " "
      ++ padNum 2 h ++ ":" ++ padNum 2 mi ++ ":" ++ padNum 2 s

/-- One block of the `list_versions` output: the version file's stem, the
displayed identifier (`version_path.stem.replace(doc_id + "_", "")` —
Python `str.replace`, removing every occurrence), the displayed date
(parsed timestamp, or the identifier verbatim on `ValueError`) and the
file's byte size (`stat().st_size`). -/
structure VersionEntry where
  stem : String
  version_id : String
  formatted : String
  size : Nat
deriving DecidableEq

def mkVersionEntry (doc_id : String) (p : String × String) : VersionEntry :=
  let ts := p.1.replace (doc_id ++ "_") ""
  { stem := p.1
    version_id := ts
    formatted := match parseTS ts with
      | some dt => formatTS dt
      | none => ts
    size := p.2.utf8ByteSize }

theorem mkVersionEntry_stem (doc_id : String) (p : String × String) :
    (mkVersionEntry doc_id p).stem = p.1 := rfl

theorem mkVersionEntry_vid (doc_id : String) (p : String × String) :
    (mkVersionEntry doc_id p).version_id = p.1.replace (doc_id ++ "_") "" := rfl

theorem mkVersionEntry_size (doc_id : String) (p : String × String) :
    (mkVersionEntry doc_id p).size = p.2.utf8ByteSize := rfl

theorem mkVersionEntry_fmt (doc_id : String) (p : String × String) :
    (mkVersionEntry doc_id p).formatted
      = (match parseTS (p.1.replace (doc_id ++ "_") "") with
          | some dt => formatTS dt
          | none => p.1.replace (doc_id ++ "_") "") := rfl

/-- Code-point lexicographic strict comparison of character lists: how
Python compares the path strings (`Path` ordering falls back to string
ordering within one directory). -/
def charListLt : List Char → List Char → Bool
  | [], [] => false
  | [], _ :: _ => true
  | _ :: _, [] => false
  | a :: as, b :: bs =>
    if a.toNat < b.toNat then true
    else if b.toNat < a.toNat then false
    else charListLt as bs

/-- Python `x <= y` on strings. -/
def fileNameLe (x y : String) : Bool :=
  !(charListLt y.data x.data)

theorem charListLt_asymm (a : List Char) : ∀ b : List Char,
    charListLt a b = true → charListLt b a = false := by
  induction a with
  | nil =>
    intro b hb
    cases b with
    | nil => rfl
    | cons y ys => rfl
  | cons x xs ih =>
    intro b hb
    cases b with
    | nil => simp [charListLt] at hb
    | cons y ys =>
      simp only [charListLt] at hb ⊢
      by_cases hxy : x.toNat < y.toNat
      · rw [if_neg (by omega), if_pos hxy]
      · rw [if_neg hxy] at hb
        by_cases hyx : y.toNat < x.toNat
        · rw [if_pos hyx] at hb
          exact absurd hb (by simp)
        · rw [if_neg hyx] at hb
          rw [if_neg hyx, if_neg hxy]
          exact ih ys hb

theorem charListLt_negtrans (a : List Char) : ∀ b c : List Char,
    charListLt b a = false → charListLt c b = false → charListLt c a = false := by
  induction a with
  | nil =>
    intro b c h1 h2
    cases c with
    | nil => rfl
    | cons z zs => rfl
  | cons x xs ih =>
    intro b c h1 h2
    cases b with
    | nil => simp [charListLt] at h1
    | cons y ys =>
      cases c with
      | nil =>
        simp [charListLt] at h2
      | cons z zs =>
        simp only [charListLt] at h1 h2 ⊢
        by_cases hyx : y.toNat < x.toNat
        · rw [if_pos hyx] at h1
          exact absurd h1 (by simp)
        · rw [if_neg hyx] at h1
          by_cases hzy : z.toNat < y.toNat
          · rw [if_pos hzy] at h2
            exact absurd h2 (by simp)
          · rw [if_neg hzy] at h2
            rw [if_neg (show ¬ z.toNat < x.toNat by omega)]
            by_cases hxz : x.toNat < z.toNat
            · rw [if_pos hxz]
            · rw [if_neg hxz]
              rw [if_neg (show ¬ x.toNat < y.toNat by omega)] at h1
              rw [if_neg (show ¬ y.toNat < z.toNat by omega)] at h2
              exact ih ys zs h1 h2

/-- Insertion into a list kept descending by file name:
`sorted(versions, reverse=True)` compares the `Path`s, i.e. within one
directory the file names `<stem>.md`, by code point. -/
def insertByNameDesc (x : String × String) :
    List (String × String) → List (String × String)
  | [] => [x]
  | y :: ys =>
    if fileNameLe (y.1 ++ ".md") (x.1 ++ ".md") then x :: y :: ys
    else y :: insertByNameDesc x ys

def sortByNameDesc (l : List (String × String)) : List (String × String) :=
  l.foldr insertByNameDesc []

/-- `list_versions`: one entry per file of the versions directory matching
the glob `<doc_id>_*.md`, newest first (file name descending). -/
def list_versions (s : State) (doc_id : String) : List VersionEntry :=
  (sortByNameDesc (s.verFiles.filter (fun p => matchesGlob doc_id p.1))).map
    (mkVersionEntry doc_id)

theorem mem_insertByNameDesc (x y : String × String) (l : List (String × String)) :
    y ∈ insertByNameDesc x l ↔ y = x ∨ y ∈ l := by
  induction l with
  | nil => simp [insertByNameDesc]
  | cons z zs ih =>
    unfold insertByNameDesc
    split
    · simp
    · simp only [List.mem_cons, ih]
      tauto

theorem mem_sortByNameDesc (x : String × String) (l : List (String × String)) :
    x ∈ sortByNameDesc l ↔ x ∈ l := by
  induction l with
  | nil => simp [sortByNameDesc]
  | cons z zs ih =>
    unfold sortByNameDesc at *
    simp only [List.foldr_cons, mem_insertByNameDesc, ih, List.mem_cons]

theorem sorted_insertByNameDesc (x : String × String) (l : List (String × String))
    (h : l.Pairwise (fun a b => fileNameLe (b.1 ++ ".md") (a.1 ++ ".md") = true)) :
    (insertByNameDesc x l).Pairwise
      (fun a b => fileNameLe (b.1 ++ ".md") (a.1 ++ ".md") = true) := by
  induction l with
  | nil => simp [insertByNameDesc]
  | cons y ys ih =>
    rw [List.pairwise_cons] at h
    unfold insertByNameDesc
    split
    case isTrue hle =>
      rw [List.pairwise_cons]
      refine ⟨?_, List.pairwise_cons.mpr h⟩
      intro z hz
      rcases List.mem_cons.mp hz with hz1 | hz1
      · subst hz1
        exact hle
      · have h1 := h.1 z hz1
        simp only [fileNameLe, Bool.not_eq_true'] at hle h1 ⊢
        exact charListLt_negtrans _ _ _ h1 hle
    case isFalse hle =>
      rw [List.pairwise_cons]
      refine ⟨?_, ih h.2⟩
      intro z hz
      rcases (mem_insertByNameDesc x z ys).mp hz with hz1 | hz1
      · subst hz1
        simp only [fileNameLe, Bool.not_eq_true', Bool.not_eq_false] at hle ⊢
        exact charListLt_asymm _ _ hle
      · exact h.1 z hz1

theorem sorted_sortByNameDesc (l : List (String × String)) :
    (sortByNameDesc l).Pairwise
      (fun a b => fileNameLe (b.1 ++ ".md") (a.1 ++ ".md") = true) := by
  induction l with
  | nil => simp [sortByNameDesc]
  | cons z zs ih =>
    unfold sortByNameDesc at *
    rw [List.foldr_cons]
    exact sorted_insertByNameDesc z _ ih

/-- C6 counterexample: with documents "a" and "a_b" each having one
snapshot, the listing for "a" also contains the snapshot file
"a_b_20240101_000000", which belongs to document "a_b" — and it even
sorts above "a"'s own snapshot — so the listing is not restricted to
snapshots of "a". -/
theorem list_versions_cross_document :
    ((list_versions ⟨[("a", "x"), ("a_b", "y")],
        [("a_b_20240101_000000", "old-b"), ("a_20240102_000000", "old-a")],
        [("a", "x"), ("a_b", "y")], [], []⟩ "a").map (fun e => e.stem)
      = ["a_b_20240101_000000", "a_20240102_000000"]) ∧
    snapshotOwner "a_b_20240101_000000" = some "a_b" ∧
    snapshotOwner "a_20240102_000000" = some "a" := by
  decide

/-- C6 amended: `list_versions(d)` returns exactly the snapshot files
whose name matches the glob `d ++ "_*"` — all of `d`'s own snapshots, but
possibly also snapshots of a document whose identifier extends `d` by an
underscore-separated suffix — ordered by file name descending (newest
first among canonical timestamps), each annotated with its displayed
identifier, its parsed timestamp (raw identifier when unparsable) and its
byte size. -/
theorem list_versions_correct (s : State) (doc_id : String) :
    (∀ e ∈ list_versions s doc_id,
        matchesGlob doc_id e.stem = true ∧
        ∃ c, (e.stem, c) ∈ s.verFiles ∧ e.size = c.utf8ByteSize ∧
          e.version_id = e.stem.replace (doc_id ++ "_") "" ∧
          e.formatted = (match parseTS e.version_id with
            | some dt => formatTS dt
            | none => e.version_id)) ∧
    (∀ stem c, (stem, c) ∈ s.verFiles → matchesGlob doc_id stem = true →
        ∃ e ∈ list_versions s doc_id, e.stem = stem) ∧
    (list_versions s doc_id).Pairwise
      (fun a b => fileNameLe (b.stem ++ ".md") (a.stem ++ ".md") = true) := by
  refine ⟨?_, ?_, ?_⟩
  · intro e he
    rcases List.mem_map.mp he with ⟨p, hp, hpe⟩
    have hp2 := (mem_sortByNameDesc p _).mp hp
    have hp3 := List.mem_filter.mp hp2
    subst hpe
    exact ⟨by rw [mkVersionEntry_stem]; exact hp3.2, p.2,
      by rw [mkVersionEntry_stem]; exact hp3.1,
      mkVersionEntry_size doc_id p,
      by rw [mkVersionEntry_vid, mkVersionEntry_stem],
      by rw [mkVersionEntry_fmt, mkVersionEntry_vid]⟩
  · intro stem c hmem hglob
    refine ⟨mkVersionEntry doc_id (stem, c), ?_, rfl⟩
    exact List.mem_map.mpr ⟨(stem, c),
      (mem_sortByNameDesc _ _).mpr (List.mem_filter.mpr ⟨hmem, hglob⟩), rfl⟩
  · unfold list_versions
    rw [List.pairwise_map]
    exact (sorted_sortByNameDesc _).imp (fun h => h)

/-- Witness for the amended C6 at a concrete state. -/
theorem list_versions_correct_witness :
    ∃ e ∈ list_versions ⟨[("doc", "x")], [("doc_20240101_000000", "v1")],
        [("doc", "x")], [], []⟩ "doc", e.stem = "doc_20240101_000000" :=
  (list_versions_correct ⟨[("doc", "x")], [("doc_20240101_000000", "v1")],
      [("doc", "x")], [], []⟩ "doc").2.1 "doc_20240101_000000" "v1"
    (by decide) (by decide)

end DocAssistant
